import Mathlib

/-!
Shallow embedding of `src/fastapi/remote_executor.py` (the job execution and
lifecycle engine of the remote command-execution service), together with
theorems settling the specification claims.

Modelling conventions:
* Python `time.time()` values are modelled as `Nat` time stamps.
* The job dictionary is modelled by the structure `JobRec`; keys that the
  Python code adds later (`stdout`, `returncode`, ...) are `Option` fields
  that start as `none`.
* The global `jobs` dict is an insertion-ordered association list
  (Python dicts preserve insertion order).
* The OS process handle is modelled by `ProcHandle`, ghost-instrumented with
  the number of kill signals sent to it and whether it has been reaped
  (`wait()`ed on), so that kill/reap behaviour is observable in theorems.
* `asyncio` interleaving for a single job is modelled by the executable step
  function `step` over the runner's suspension points; code between two
  `await`s is atomic (single-threaded event loop).
-/

/-- The five job status strings of the source. -/
inductive Status
  | running
  | finished
  | error
  | cancelled
  | timeout
  deriving DecidableEq, Repr

/-- The Python status string of a `Status` (used in response messages). -/
def statusName : Status → String
  | .running => "running"
  | .finished => "finished"
  | .error => "error"
  | .cancelled => "cancelled"
  | .timeout => "timeout"

/-- `job["status"] in ("finished", "error", "cancelled", "timeout")`
(the membership test of `purge_old_jobs`). -/
def statusIsTerminal : Status → Bool
  | .finished => true
  | .error => true
  | .cancelled => true
  | .timeout => true
  | .running => false

/-- Ghost model of the OS process handle: how many kill signals were sent to
the child and whether the child was reaped by `wait()`. -/
structure ProcHandle where
  killSignals : Nat
  reaped : Bool
  deriving DecidableEq, Repr

/-- One entry of the `jobs` dict. Keys written only later by the source are
`Option` fields initialised to `none`. -/
structure JobRec where
  status : Status
  command : String
  cwd : Option String
  created_at : Nat
  output_lines : List String
  process : Option ProcHandle
  stdout : Option String
  stderr : Option String
  returncode : Option Int
  error : Option String
  finished_at : Option Nat
  deriving DecidableEq, Repr

/-- The global `jobs` dict: insertion-ordered map from job id to record. -/
abbrev Registry := List (String × JobRec)

/-- `job_id in jobs` / `jobs[job_id]` lookup. -/
def lookupJob : Registry → String → Option JobRec
  | [], _ => none
  | p :: rest, jid => if p.1 == jid then some p.2 else lookupJob rest jid

/-- In-place mutation of the entry with key `jid` (dict item assignment /
`job.update`, which keeps the entry's position). -/
def updateJob : Registry → String → JobRec → Registry
  | [], _, _ => []
  | p :: rest, jid, j => (if p.1 == jid then (p.1, j) else p) :: updateJob rest jid j

/-!
## Command Gate (`is_blocked_command`)

The source normalizes whitespace with `re.sub(r"\s+", " ", command.strip())`
and then runs `pattern.search` for each member of `BLOCKED_PATTERNS` in
order.  Both patterns are anchored with `^` (and `re.MULTILINE` is not set),
so `search` succeeds exactly when the pattern matches at the start of the
string.  The two concrete regular expressions are hand-compiled below into
executable recognizers over `List Char`; `re.IGNORECASE` is reflected by
case-insensitive literal and character-class tests.
-/

/-- Python's `\s` / `str.strip()` whitespace class (ASCII part). -/
def pyIsSpace (c : Char) : Bool :=
  c = ' ' || c = '\t' || c = '\n' || c = '\r' || c = '\x0b' || c = '\x0c'

/-- `[a-z]` under `re.IGNORECASE`. -/
def isAlphaCI (c : Char) : Bool :=
  ('a' ≤ c && c ≤ 'z') || ('A' ≤ c && c ≤ 'Z')

/-- Strip a literal (matched case-insensitively, as under `re.IGNORECASE`)
from the front of the input, returning the rest on success. -/
def stripLitCI : List Char → List Char → Option (List Char)
  | [], l => some l
  | _ :: _, [] => none
  | x :: xs, y :: ys => if y.toLower = x.toLower then stripLitCI xs ys else none

/-- `str.strip()`: drop whitespace from both ends. -/
def pyStrip (l : List Char) : List Char :=
  ((l.dropWhile pyIsSpace).reverse.dropWhile pyIsSpace).reverse

/-- Worker for `collapseWs`: the Boolean records whether the previous
character belonged to a whitespace run whose replacement space was already
emitted. -/
def collapseAux : Bool → List Char → List Char
  | _, [] => []
  | inRun, c :: cs =>
    if pyIsSpace c then
      if inRun then collapseAux true cs else ' ' :: collapseAux true cs
    else c :: collapseAux false cs

/-- `re.sub(r"\s+", " ", ·)`: replace every maximal whitespace run by a
single space. -/
def collapseWs (l : List Char) : List Char :=
  collapseAux false l

/-- `re.sub(r"\s+", " ", command.strip())`. -/
def normalizeWs (s : String) : String :=
  ⟨collapseWs (pyStrip s.data)⟩

/-- Tail of pattern 1 after the optional `(sudo\s+)?` group:
`rm\s+(-[a-z]*f[a-z]*\s+)?/\s*$` matched at the start of `l`. -/
def matchRmCore (l : List Char) : Bool :=
  match stripLitCI ['r', 'm'] l with
  | none => false
  | some r =>
    match r with
    | [] => false
    | c :: _ =>
      if pyIsSpace c then
        match r.dropWhile pyIsSpace with
        | '/' :: rest => rest.all pyIsSpace
        | '-' :: t =>
          let run := t.takeWhile isAlphaCI
          let rest := t.dropWhile isAlphaCI
          (run.any fun c2 => c2.toLower = 'f') &&
            (match rest with
             | c2 :: _ =>
               pyIsSpace c2 &&
                 (match rest.dropWhile pyIsSpace with
                  | '/' :: rest2 => rest2.all pyIsSpace
                  | _ => false)
             | [] => false)
        | _ => false
      else false

/-- `^(sudo\s+)?rm\s+(-[a-z]*f[a-z]*\s+)?/\s*$` (with `re.I`), i.e. the
first entry of `BLOCKED_PATTERNS`, as a recognizer at the start of `l`. -/
def matchP1 (l : List Char) : Bool :=
  matchRmCore l ||
    (match stripLitCI ['s', 'u', 'd', 'o'] l with
     | some r =>
       match r with
       | c :: _ => pyIsSpace c && matchRmCore (r.dropWhile pyIsSpace)
       | [] => false
     | none => false)

/-- Tail of pattern 2 after the optional `(sudo\s+)?` group:
`ls\s+(-[a-z]*r[a-z]*)` matched at the start of `l`. -/
def matchLsCore (l : List Char) : Bool :=
  match stripLitCI ['l', 's'] l with
  | none => false
  | some r =>
    match r with
    | c :: _ =>
      pyIsSpace c &&
        (match r.dropWhile pyIsSpace with
         | '-' :: t => (t.takeWhile isAlphaCI).any fun c2 => c2.toLower = 'r'
         | _ => false)
    | [] => false

/-- `^(sudo\s+)?ls\s+(-[a-z]*r[a-z]*)` (with `re.I`), i.e. the second entry
of `BLOCKED_PATTERNS`, as a recognizer at the start of `l`. -/
def matchP2 (l : List Char) : Bool :=
  matchLsCore l ||
    (match stripLitCI ['s', 'u', 'd', 'o'] l with
     | some r =>
       match r with
       | c :: _ => pyIsSpace c && matchLsCore (r.dropWhile pyIsSpace)
       | [] => false
     | none => false)

/-- The ordered `BLOCKED_PATTERNS` list: each entry is the compiled
recognizer together with the `pattern.pattern` source text used in the
rejection message. -/
def BLOCKED_PATTERNS : List ((List Char → Bool) × String) :=
  [(matchP1, "^(sudo\\s+)?rm\\s+(-[a-z]*f[a-z]*\\s+)?/\\s*$"),
   (matchP2, "^(sudo\\s+)?ls\\s+(-[a-z]*r[a-z]*)")]

/-- The f-string `f"Blocked: command matches dangerous pattern ({pattern.pattern})"`. -/
def blockReason (pat : String) : String :=
  "Blocked: command matches dangerous pattern (" ++ pat ++ ")"

/-- The `for pattern in BLOCKED_PATTERNS: if pattern.search(cmd): return ...`
loop: first matching pattern wins. -/
def firstBlock : List ((List Char → Bool) × String) → List Char → Option String
  | [], _ => none
  | (p, pat) :: rest, cmd =>
    if p cmd then some (blockReason pat) else firstBlock rest cmd

/-- `is_blocked_command` of the source. -/
def is_blocked_command (command : String) : Option String :=
  firstBlock BLOCKED_PATTERNS (normalizeWs command).data

example : is_blocked_command "rm -rf /" =
    some (blockReason "^(sudo\\s+)?rm\\s+(-[a-z]*f[a-z]*\\s+)?/\\s*$") := by decide

example : is_blocked_command "  sudo   RM  -RF   / " =
    some (blockReason "^(sudo\\s+)?rm\\s+(-[a-z]*f[a-z]*\\s+)?/\\s*$") := by decide

example : is_blocked_command "ls -lR /workspace" =
    some (blockReason "^(sudo\\s+)?ls\\s+(-[a-z]*r[a-z]*)") := by decide

example : is_blocked_command "echo hello" = none := by decide

example : is_blocked_command "rm -r /" = none := by decide

example : is_blocked_command "ls --recursive /" = none := by decide

/-!
## Job registry operations
-/

/-- `JOB_TTL_SECONDS = 3600`. -/
def JOB_TTL_SECONDS : Nat := 3600

/-- The per-job condition of `purge_old_jobs`:
`job["status"] in (...) and now - job.get("finished_at", now) > JOB_TTL_SECONDS`.
(`Nat` subtraction truncates at zero exactly as the Python real-valued
difference can never exceed the TTL when `finished_at` is in the future.) -/
def jobExpired (j : JobRec) (now : Nat) : Bool :=
  statusIsTerminal j.status && decide (now - (j.finished_at.getD now) > JOB_TTL_SECONDS)

/-- `purge_old_jobs`: delete every expired entry (all other entries keep
their order and contents). -/
def purge_old_jobs (jobs : Registry) (now : Nat) : Registry :=
  List.filter (fun p => !(jobExpired p.2 now)) jobs

/-- The `CommandRequest` pydantic model. -/
structure CommandRequest where
  command : String
  cwd : Option String := none
  timeout : Nat := 1200
  env : List (String × String) := []
  deriving DecidableEq, Repr

/-- The initial `jobs[job_id]` dict created by `exec_command` (keys that do
not exist yet are `none`). -/
def mkJob (req : CommandRequest) (now : Nat) : JobRec :=
  { status := .running
    command := req.command
    cwd := req.cwd
    created_at := now
    output_lines := []
    process := none
    stdout := none
    stderr := none
    returncode := none
    error := none
    finished_at := none }

/-- The synchronous part of the `exec_command` endpoint: purge, gate check
(`HTTPException(400)` modelled as `Except.error`), then registry insertion.
The spawned `run()` coroutine is modelled separately by `step`. -/
def exec_command (jobs : Registry) (req : CommandRequest) (newId : String)
    (now : Nat) : Registry × Except String String :=
  let jobs1 := purge_old_jobs jobs now
  match is_blocked_command req.command with
  | some reason => (jobs1, .error reason)
  | none => (jobs1 ++ [(newId, mkJob req now)], .ok newId)

/-- Response body of the `result` endpoint. -/
structure ResultResponse where
  job_id : String
  status : Status
  stdout : String
  stderr : String
  returncode : Option Int
  error : Option String
  deriving DecidableEq, Repr

/-- The `result` endpoint (`HTTPException(404)` modelled as `Except.error`).
Missing dict keys fall back to the defaults of `job.get`. -/
def result (jobs : Registry) (jid : String) : Except String ResultResponse :=
  match lookupJob jobs jid with
  | none => .error "Job not found"
  | some job =>
    .ok { job_id := jid
          status := job.status
          stdout := job.stdout.getD ""
          stderr := job.stderr.getD ""
          returncode := job.returncode
          error := job.error }

/-- The `cancel_job` endpoint.  Returns the response message, the new
registry, and whether a kill signal was sent (the `proc.kill()` call; a
`ProcessLookupError` is swallowed by the source, so sending is modelled
unconditionally whenever a handle exists). -/
def cancel_job (jobs : Registry) (jid : String) (now : Nat) :
    Except String (String × Registry × Bool) :=
  match lookupJob jobs jid with
  | none => .error "Job not found"
  | some job =>
    if job.status ≠ .running then
      .ok ("Job is already " ++ statusName job.status, jobs, false)
    else
      match job.process with
      | some h =>
        .ok ("Job cancelled",
             updateJob jobs jid
               { job with
                 status := .cancelled
                 finished_at := some now
                 process := some { h with killSignals := h.killSignals + 1 } },
             true)
      | none =>
        .ok ("Job cancelled",
             updateJob jobs jid { job with status := .cancelled, finished_at := some now },
             false)

/-- One summary row of the `list_jobs` endpoint. -/
structure JobSummary where
  job_id : String
  status : Status
  command : String
  created_at : Nat
  deriving DecidableEq, Repr

/-- The `list_jobs` endpoint: purge, then summarise in insertion order. -/
def list_jobs (jobs : Registry) (now : Nat) : Registry × List JobSummary :=
  let jobs1 := purge_old_jobs jobs now
  (jobs1,
   List.map
     (fun p =>
       { job_id := p.1
         status := p.2.status
         command := p.2.command
         created_at := p.2.created_at })
     jobs1)

/-!
## Output Stream Publisher (`stream_output`)

One iteration of the SSE `event_generator` loop, against one consistent
snapshot of the registry (the loop body runs without suspension between the
`jobs.get` lookup and the status check; the `yield`s hand lines to the
subscriber).  A `data` event carries one output line; the final `done`
event carries the terminal status.  The returned cursor is `some idx` when
the generator sleeps and polls again, `none` when it closed.
-/

inductive StreamEv
  | data (s : String)
  | done (st : Status)
  deriving DecidableEq, Repr

/-- One poll iteration of `event_generator`. -/
def stream_poll (jobs : Registry) (jid : String) (idx : Nat) :
    List StreamEv × Option Nat :=
  match lookupJob jobs jid with
  | none => ([], none)
  | some job =>
    let evs := List.map StreamEv.data (job.output_lines.drop idx)
    if job.status = .running then (evs, some job.output_lines.length)
    else (evs ++ [.done job.status], none)

/-- The whole generator run against a sequence of registry snapshots (one
snapshot per wake-up of the polling loop); the run closes as soon as a poll
returns no continuation cursor. -/
def stream_output : List Registry → String → Nat → List StreamEv
  | [], _, _ => []
  | js :: rest, jid, idx =>
    match stream_poll js jid idx with
    | (evs, none) => evs
    | (evs, some idx2) => evs ++ stream_output rest jid idx2

/-!
## The `run()` coroutine of one job, as a step system

`Config` is the job record paired with the runner coroutine's control point
(its next suspension point).  `step` is the (partial) transition function:
`none` means the event is not enabled in that configuration.  Code between
two `await`s runs atomically on the event loop, so e.g. the whole timeout
handler (`kill`; `wait`; status update) is a single step, and so is the
synchronous `cancel_job` body (event `cancelReq`).
-/

inductive RunnerPC
  | beforeSpawn
  | reading
  | eofReached
  | finishedRun
  deriving DecidableEq, Repr

structure Config where
  job : JobRec
  pc : RunnerPC
  deriving DecidableEq, Repr

/-- `"".join(output_lines)`. -/
def joinOutput (ls : List String) : String :=
  String.join ls

inductive Ev
  /-- `create_subprocess_shell` returns and `jobs[job_id]["process"] = proc`. -/
  | spawn
  /-- `proc.stdout.readline()` returns a (decoded) line, which is appended. -/
  | readLine (s : String)
  /-- `readline` returns `b""`: the read loop breaks. -/
  | readEof
  /-- `asyncio.wait_for` raises `TimeoutError`: kill, wait, record timeout. -/
  | timeoutFire (now : Nat)
  /-- the final `proc.wait()` returns `rc` and the finished update runs. -/
  | finishWait (rc : Int) (now : Nat)
  /-- some exception reaches the outer `except`: the error update runs. -/
  | fail (msg : String) (now : Nat)
  /-- an external `cancel_job` request for this job runs to completion. -/
  | cancelReq (now : Nat)
  deriving DecidableEq, Repr

def step (cfg : Config) (e : Ev) : Option Config :=
  match e with
  | .spawn =>
    match cfg.pc with
    | .beforeSpawn =>
      some ⟨{ cfg.job with process := some ⟨0, false⟩ }, .reading⟩
    | _ => none
  | .readLine s =>
    match cfg.pc with
    | .reading =>
      some ⟨{ cfg.job with output_lines := cfg.job.output_lines ++ [s] }, .reading⟩
    | _ => none
  | .readEof =>
    match cfg.pc with
    | .reading => some ⟨cfg.job, .eofReached⟩
    | _ => none
  | .timeoutFire now =>
    match cfg.pc with
    | .reading =>
      match cfg.job.process with
      | some h =>
        some ⟨{ cfg.job with
                process := some ⟨h.killSignals + 1, true⟩
                status := .timeout
                stdout := some (joinOutput cfg.job.output_lines)
                stderr := some ""
                returncode := some (-1)
                finished_at := some now },
              .finishedRun⟩
      | none => none
    | _ => none
  | .finishWait rc now =>
    match cfg.pc with
    | .eofReached =>
      match cfg.job.process with
      | some h =>
        some ⟨{ cfg.job with
                process := some ⟨h.killSignals, true⟩
                status := .finished
                stdout := some (joinOutput cfg.job.output_lines)
                stderr := some ""
                returncode := some rc
                finished_at := some now },
              .finishedRun⟩
      | none => none
    | _ => none
  | .fail msg now =>
    match cfg.pc with
    | .finishedRun => none
    | _ =>
      some ⟨{ cfg.job with status := .error, error := some msg, finished_at := some now },
            .finishedRun⟩
  | .cancelReq now =>
    if cfg.job.status = .running then
      match cfg.job.process with
      | some h =>
        some ⟨{ cfg.job with
                status := .cancelled
                finished_at := some now
                process := some ⟨h.killSignals + 1, h.reaped⟩ },
              cfg.pc⟩
      | none =>
        some ⟨{ cfg.job with status := .cancelled, finished_at := some now }, cfg.pc⟩
    else some cfg

/-- The initial configuration right after `exec_command` registered the job
and scheduled `run()`. -/
def initConfig (req : CommandRequest) (now : Nat) : Config :=
  ⟨mkJob req now, .beforeSpawn⟩

/-- Run a whole event trace (`none` if some event is not enabled). -/
def runTrace (cfg : Config) : List Ev → Option Config
  | [] => some cfg
  | e :: es =>
    match step cfg e with
    | none => none
    | some c2 => runTrace c2 es

example :
    (runTrace (initConfig { command := "echo hello" } 0)
        [.spawn, .readLine "hello\n", .readEof, .finishWait 0 3]).map
      (fun c => (c.job.status, c.job.stdout, c.job.returncode))
      = some (.finished, some "hello\n", some 0) := by decide

instance {ε α : Type} [DecidableEq ε] [DecidableEq α] : DecidableEq (Except ε α) :=
  fun a b =>
    match a, b with
    | .error x, .error y =>
      if h : x = y then .isTrue (by rw [h]) else .isFalse (by simpa using h)
    | .ok x, .ok y =>
      if h : x = y then .isTrue (by rw [h]) else .isFalse (by simpa using h)
    | .error _, .ok _ => .isFalse (by simp)
    | .ok _, .error _ => .isFalse (by simp)

/-!
## Concrete records used by witnesses and counterexamples
-/

/-- A configuration mid-read with one captured line, used to witness C6. -/
def cfgReading6 : Config :=
  ⟨{ status := .running
     command := "sleep 10"
     cwd := none
     created_at := 0
     output_lines := ["partial\n"]
     process := some ⟨0, false⟩
     stdout := none
     stderr := none
     returncode := none
     error := none
     finished_at := none },
   .reading⟩

/-- A finished job used to witness C7. -/
def jobFin7 : JobRec :=
  { status := .finished
    command := "echo hello"
    cwd := none
    created_at := 0
    output_lines := ["hello\n"]
    process := some ⟨0, true⟩
    stdout := some "hello\n"
    stderr := some ""
    returncode := some 0
    error := none
    finished_at := some 3 }

/-- A still-spawning running job used to witness the amended C10. -/
def jobRun10 : JobRec :=
  { status := .running
    command := "sleep 2000"
    cwd := none
    created_at := 0
    output_lines := []
    process := none
    stdout := none
    stderr := none
    returncode := none
    error := none
    finished_at := none }

/-- A finished job whose retention window has expired, showing that a
rejected submission still mutates the registry (it purges first). -/
def expiredJob4 : JobRec :=
  { status := .finished
    command := "echo old"
    cwd := none
    created_at := 0
    output_lines := []
    process := some ⟨0, true⟩
    stdout := some ""
    stderr := some ""
    returncode := some 0
    error := none
    finished_at := some 0 }

/-!
## Checker for "whitespace-normalized" strings (used by claim C5)

`normScan prevWs l` scans `l` left to right; `prevWs` says whether the
previous character (or the virtual start of string) counts as whitespace.
It accepts exactly the strings with no leading or trailing whitespace, no
two adjacent whitespace characters, and every whitespace character equal to
a single space — i.e. the collapsed-and-trimmed strings.
-/

def normScan : Bool → List Char → Bool
  | prevWs, [] => !prevWs
  | prevWs, c :: cs =>
    if pyIsSpace c then (!prevWs) && (c == ' ') && normScan true cs
    else normScan false cs

/-- A string is in whitespace-normalized form: trimmed at both ends, no
whitespace runs, all whitespace a plain space. -/
def isNormalized : List Char → Bool
  | [] => true
  | c :: cs => normScan true (c :: cs)

/-- First character (if any) is not whitespace. -/
def headNonWs : List Char → Bool
  | [] => true
  | c :: _ => !pyIsSpace c

/-- Last character (if any) is not whitespace. -/
def lastNonWs : List Char → Bool
  | [] => true
  | [c] => !pyIsSpace c
  | _ :: c :: cs => lastNonWs (c :: cs)

/-!
## Snapshot chains (used by claim C9)
-/

/-- The append-only relation between two registry snapshots of one job's
output: the later snapshot extends the earlier one. -/
def prefixRel (a b : JobRec) : Prop :=
  ∃ t, b.output_lines = a.output_lines ++ t

/-- A running snapshot with one captured line, used to witness C9. -/
def jA9 : JobRec :=
  { status := .running
    command := "echo a; echo b"
    cwd := none
    created_at := 0
    output_lines := ["a\n"]
    process := some ⟨0, false⟩
    stdout := none
    stderr := none
    returncode := none
    error := none
    finished_at := none }

/-- The terminal snapshot of the same job, used to witness C9. -/
def jB9 : JobRec :=
  { status := .finished
    command := "echo a; echo b"
    cwd := none
    created_at := 0
    output_lines := ["a\n", "b\n"]
    process := some ⟨0, true⟩
    stdout := some "a\nb\n"
    stderr := some ""
    returncode := some 0
    error := none
    finished_at := some 2 }

/-!
## General lemmas about the registry
-/

/-- Updating the entry found at a key makes the lookup return the new
record. -/
theorem lookupJob_updateJob (jobs : Registry) (jid : String) (job j : JobRec)
    (h : lookupJob jobs jid = some job) :
    lookupJob (updateJob jobs jid j) jid = some j := by
  induction jobs with
  | nil => simp [lookupJob] at h
  | cons p rest ih =>
    by_cases hp : p.1 == jid
    · simp [lookupJob, updateJob, hp]
    · simp [lookupJob, updateJob, hp] at h ⊢
      exact ih h

/-!
## Claims C1, C2, C3: the cancellation race

`cancel_job` marks an in-flight job `cancelled` (and kills its process), but
the job's `run()` coroutine keeps running and never re-checks the status:
when its read loop reaches end-of-stream (which the kill itself causes) it
unconditionally runs the finished update, overwriting the terminal
`cancelled` status, and lines still buffered in the pipe are appended after
the status became terminal.  The traces below are real executions: they
follow the `asyncio` schedule described in each comment.
-/

/-- Claim C1 (code bug): a job whose status has been set to `cancelled` is
subsequently observed as `finished`.  Trace: submit `sleep 30`; the runner
spawns; a cancel request arrives (kill + `status = "cancelled"`); the killed
child's stream reaches EOF, so the read loop breaks; `proc.wait()` returns
and the finished update overwrites the terminal status with `finished`. -/
theorem c1_cancelled_job_becomes_finished :
    (runTrace (initConfig { command := "sleep 30" } 0) [.spawn, .cancelReq 5]).map
        (fun c => c.job.status) = some .cancelled
      ∧
      (runTrace (initConfig { command := "sleep 30" } 0)
            [.spawn, .cancelReq 5, .readEof, .finishWait (-9) 6]).map
          (fun c => c.job.status) = some .finished := by
  decide

/-- Claim C2 (code bug): output is appended after the status left `running`.
Trace: submit `echo hello; sleep 30`; the child writes `hello\n` into the
pipe; before the runner's `readline` is scheduled, a cancel request sets the
status to `cancelled`; the buffered line is then still read and appended. -/
theorem c2_output_appended_after_terminal_status :
    (runTrace (initConfig { command := "echo hello; sleep 30" } 0)
          [.spawn, .cancelReq 5]).map
        (fun c => (c.job.status, c.job.output_lines)) = some (.cancelled, [])
      ∧
      (runTrace (initConfig { command := "echo hello; sleep 30" } 0)
            [.spawn, .cancelReq 5, .readLine "hello\n"]).map
          (fun c => (c.job.status, c.job.output_lines))
        = some (.cancelled, ["hello\n"]) := by
  decide

/-- Claim C3 (code bug): a cancelled job's `result` does not preserve the
captured partial output.  Trace: submit `echo hi; sleep 30`; the runner
captures `hi\n`; a cancel request terminates the job; `result` then returns
`stdout = ""` although the captured output joins to `"hi\n"`, because the
cancel (and error) paths never write the `stdout` key. -/
theorem c3_cancelled_result_drops_partial_output :
    (runTrace (initConfig { command := "echo hi; sleep 30" } 0)
          [.spawn, .readLine "hi\n", .cancelReq 5]).map
        (fun c =>
          (c.job.status, joinOutput c.job.output_lines, result [("id1", c.job)] "id1"))
      = some (.cancelled, "hi\n",
              .ok { job_id := "id1"
                    status := .cancelled
                    stdout := ""
                    stderr := ""
                    returncode := none
                    error := none })
      ∧ ("hi\n" : String) ≠ "" := by
  decide

/-!
## Claim C6: the timeout transition
-/

/-- Claim C6: if the read loop is still in progress (so end-of-stream was not
reached) when the timeout budget expires, the runner kills the child exactly
once more, reaps it (`proc.wait()`), and records `status = timeout`, the
sentinel return code `-1`, and `stdout` equal to the join of the output
captured so far; the sentinel differs from every exit code a normally
terminating process can report (0–255). -/
theorem c6_timeout_kills_reaps_and_records (cfg : Config) (now : Nat)
    (h : ProcHandle) (hpc : cfg.pc = .reading) (hproc : cfg.job.process = some h) :
    step cfg (.timeoutFire now)
        = some ⟨{ cfg.job with
                  process := some ⟨h.killSignals + 1, true⟩
                  status := .timeout
                  stdout := some (joinOutput cfg.job.output_lines)
                  stderr := some ""
                  returncode := some (-1)
                  finished_at := some now },
                .finishedRun⟩
      ∧ ∀ e : Nat, e ≤ 255 → ((e : Int) ≠ -1) := by
  obtain ⟨job, pc⟩ := cfg
  dsimp at hpc hproc
  subst hpc
  refine ⟨by simp [step, hproc], ?_⟩
  intro e _
  omega

theorem c6_timeout_kills_reaps_and_records_witness :
    (step cfgReading6 (.timeoutFire 2)).map
        (fun c => (c.job.status, c.job.returncode, c.job.stdout, c.job.process, c.pc))
      = some (.timeout, some (-1), some "partial\n", some ⟨1, true⟩, .finishedRun) := by
  have h := c6_timeout_kills_reaps_and_records cfgReading6 2 ⟨0, false⟩ rfl rfl
  rw [h.1]
  decide

/-!
## Claim C7: cancelling a job that is not running
-/

/-- Claim C7: a cancel request for a job in any status other than `running`
succeeds, reports the job's current status, and leaves the registry (hence
every field of every job) unchanged and sends no kill signal. -/
theorem c7_cancel_terminal_is_noop (jobs : Registry) (jid : String) (job : JobRec)
    (now : Nat) (hlk : lookupJob jobs jid = some job) (hst : job.status ≠ .running) :
    cancel_job jobs jid now
      = .ok ("Job is already " ++ statusName job.status, jobs, false) := by
  simp [cancel_job, hlk, hst]

theorem c7_cancel_terminal_is_noop_witness :
    cancel_job [("a", jobFin7)] "a" 99
      = .ok ("Job is already " ++ statusName Status.finished, [("a", jobFin7)], false) := by
  exact c7_cancel_terminal_is_noop [("a", jobFin7)] "a" jobFin7 99 (by decide) (by decide)

/-!
## Claim C10: cancelling before the process handle is recorded

The cancel operation itself sends no signal when `job["process"]` is still
`None`, and marks the job cancelled; but the claim that no signal is ever
sent to the child spawned afterwards is false: the cancelled job's runner
keeps executing, and its timeout enforcement later kills that child.
-/

/-- Claim C10 is false as stated: submit `sleep 2000` (default timeout 1200);
a cancel request lands before `create_subprocess_shell` returned, so
`process` is `None` and no kill happens; the runner then records the spawned
child and, at the timeout, kills it (`killSignals = 1`) — a signal *is* sent
to the subsequently spawned child (and the terminal `cancelled` status is
overwritten with `timeout` as well). -/
theorem c10_counterexample_later_kill :
    (runTrace (initConfig { command := "sleep 2000" } 0) [.cancelReq 1]).map
        (fun c => (c.job.status, c.job.finished_at, c.job.process))
      = some (.cancelled, some 1, none)
      ∧
      (runTrace (initConfig { command := "sleep 2000" } 0)
            [.cancelReq 1, .spawn, .timeoutFire 1201]).map
          (fun c => (c.job.process, c.job.status))
        = some (some ⟨1, true⟩, .timeout) := by
  decide

/-- Claim C10 as amended: cancelling a running job whose process handle is
still unset succeeds with no kill attempt, changing exactly `status` (to
`cancelled`) and `finished_at`; and the cancellation mechanism never
signals the child later either — any further cancel request is a no-op
without a kill.  (Only the runner's own independent timeout enforcement may
still signal the subsequently spawned child.) -/
theorem c10_cancel_unspawned_no_kill (jobs : Registry) (jid : String) (job : JobRec)
    (now : Nat) (hlk : lookupJob jobs jid = some job) (hst : job.status = .running)
    (hpr : job.process = none) :
    cancel_job jobs jid now
        = .ok ("Job cancelled",
               updateJob jobs jid { job with status := .cancelled, finished_at := some now },
               false)
      ∧ ∀ now2 : Nat,
          cancel_job
              (updateJob jobs jid { job with status := .cancelled, finished_at := some now })
              jid now2
            = .ok ("Job is already " ++ statusName Status.cancelled,
                   updateJob jobs jid { job with status := .cancelled, finished_at := some now },
                   false) := by
  constructor
  · simp [cancel_job, hlk, hst, hpr]
  · intro now2
    have hlk2 :
        lookupJob (updateJob jobs jid { job with status := .cancelled, finished_at := some now }) jid
          = some { job with status := .cancelled, finished_at := some now } :=
      lookupJob_updateJob jobs jid job _ hlk
    simp [cancel_job, hlk2]

theorem c10_cancel_unspawned_no_kill_witness :
    cancel_job [("a", jobRun10)] "a" 7
        = .ok ("Job cancelled",
               [("a", { jobRun10 with status := .cancelled, finished_at := some 7 })],
               false)
      ∧ cancel_job [("a", { jobRun10 with status := .cancelled, finished_at := some 7 })] "a" 9
          = .ok ("Job is already " ++ statusName Status.cancelled,
                 [("a", { jobRun10 with status := .cancelled, finished_at := some 7 })],
                 false) := by
  have h := c10_cancel_unspawned_no_kill [("a", jobRun10)] "a" jobRun10 7 (by decide) rfl rfl
  exact ⟨h.1, h.2 9⟩

/-!
## Claim C4: rejected submissions
-/

/-- Claim C4 is false as stated: submitting the blocked command `rm -rf /`
at time 4000 against a registry holding one expired finished job reports the
rejection but does *not* leave the registry unchanged — `purge_old_jobs`
runs before the gate check and evicts the expired job. -/
theorem c4_counterexample_purge_on_reject :
    (exec_command [("old", expiredJob4)] { command := "rm -rf /" } "new" 4000).2
        = .error (blockReason "^(sudo\\s+)?rm\\s+(-[a-z]*f[a-z]*\\s+)?/\\s*$")
      ∧ (exec_command [("old", expiredJob4)] { command := "rm -rf /" } "new" 4000).1
          ≠ [("old", expiredJob4)] := by
  decide

/-- Claim C4 as amended: a submission whose command matches the deny-list
reports the rejection synchronously and never creates a job; the registry
after the rejected submission is exactly the purge of the previous registry
(so no entry is ever added — the registry is a sublist of the old one). -/
theorem c4_reject_creates_no_job (jobs : Registry) (req : CommandRequest)
    (newId : String) (now : Nat) (reason : String)
    (hb : is_blocked_command req.command = some reason) :
    (exec_command jobs req newId now).2 = .error reason
      ∧ (exec_command jobs req newId now).1 = purge_old_jobs jobs now
      ∧ List.Sublist (exec_command jobs req newId now).1 jobs := by
  refine ⟨?_, ?_, ?_⟩
  · simp [exec_command, hb]
  · simp [exec_command, hb]
  · simp only [exec_command, hb]
    exact List.filter_sublist jobs

theorem c4_reject_creates_no_job_witness :
    (exec_command [("old", expiredJob4)] { command := "rm -rf /" } "new" 4000).2
        = .error (blockReason "^(sudo\\s+)?rm\\s+(-[a-z]*f[a-z]*\\s+)?/\\s*$")
      ∧ (exec_command [("old", expiredJob4)] { command := "rm -rf /" } "new" 4000).1
          = purge_old_jobs [("old", expiredJob4)] 4000
      ∧ List.Sublist (exec_command [("old", expiredJob4)] { command := "rm -rf /" } "new" 4000).1
          [("old", expiredJob4)] := by
  exact c4_reject_creates_no_job [("old", expiredJob4)] { command := "rm -rf /" } "new" 4000
    (blockReason "^(sudo\\s+)?rm\\s+(-[a-z]*f[a-z]*\\s+)?/\\s*$") (by decide)

/-!
## Claim C8: the retention sweep
-/

/-- `jobExpired` unfolded to the specification's wording. -/
theorem jobExpired_iff (j : JobRec) (now : Nat) :
    jobExpired j now = true
      ↔ (statusIsTerminal j.status = true
          ∧ ∃ t, j.finished_at = some t ∧ t + JOB_TTL_SECONDS < now) := by
  unfold jobExpired
  cases hf : j.finished_at with
  | none => simp [hf, Nat.sub_self]
  | some t =>
    simp only [hf, Option.getD_some, Bool.and_eq_true, decide_eq_true_eq,
      Option.some.injEq]
    constructor
    · rintro ⟨h1, h2⟩
      exact ⟨h1, t, rfl, by omega⟩
    · rintro ⟨h1, t2, rfl, h2⟩
      exact ⟨h1, by omega⟩

/-- Claim C8: `purge_old_jobs` removes exactly the terminal jobs whose
`finished_at` lies more than `JOB_TTL_SECONDS` before `now`; every retained
entry is kept unchanged and in order (the result is a sublist); and both
submission (`exec_command`) and listing (`list_jobs`) operate on the purged
registry. -/
theorem c8_purge_exactly_expired (jobs : Registry) (now : Nat) :
    (∀ (jid : String) (j : JobRec),
        (jid, j) ∈ purge_old_jobs jobs now
          ↔ (jid, j) ∈ jobs
            ∧ ¬(statusIsTerminal j.status = true
                 ∧ ∃ t, j.finished_at = some t ∧ t + JOB_TTL_SECONDS < now))
      ∧ List.Sublist (purge_old_jobs jobs now) jobs
      ∧ (∀ (req : CommandRequest) (newId : String),
           (exec_command jobs req newId now).1 = purge_old_jobs jobs now
             ∨ (exec_command jobs req newId now).1
                 = purge_old_jobs jobs now ++ [(newId, mkJob req now)])
      ∧ (list_jobs jobs now).1 = purge_old_jobs jobs now := by
  refine ⟨?_, List.filter_sublist jobs, ?_, rfl⟩
  · intro jid j
    rw [purge_old_jobs, List.mem_filter]
    refine and_congr_right fun _ => ?_
    rw [Bool.not_eq_true', ← jobExpired_iff]
    exact ⟨fun h hc => by rw [h] at hc; exact Bool.false_ne_true hc,
           fun h => Bool.eq_false_iff.mpr h⟩
  · intro req newId
    cases hb : is_blocked_command req.command with
    | some r => left; simp [exec_command, hb]
    | none => right; simp [exec_command, hb]

/-!
## Claim C5: the gate check
-/

theorem lastNonWs_append_singleton (l : List Char) (c : Char) :
    lastNonWs (l ++ [c]) = !pyIsSpace c := by
  induction l with
  | nil => rfl
  | cons a l ih =>
    cases l with
    | nil => rfl
    | cons b l2 => simpa [lastNonWs] using ih

theorem lastNonWs_reverse (l : List Char) : lastNonWs l.reverse = headNonWs l := by
  cases l with
  | nil => rfl
  | cons c cs => simp [List.reverse_cons, lastNonWs_append_singleton, headNonWs]

theorem headNonWs_reverse (l : List Char) : headNonWs l.reverse = lastNonWs l := by
  have h := lastNonWs_reverse l.reverse
  rw [List.reverse_reverse] at h
  exact h.symm

theorem headNonWs_dropWhile (l : List Char) :
    headNonWs (l.dropWhile pyIsSpace) = true := by
  induction l with
  | nil => rfl
  | cons c cs ih =>
    by_cases hw : pyIsSpace c
    · simpa [List.dropWhile, hw] using ih
    · simp [List.dropWhile, hw, headNonWs]

theorem lastNonWs_dropWhile (l : List Char) (h : lastNonWs l = true) :
    lastNonWs (l.dropWhile pyIsSpace) = true := by
  induction l with
  | nil => exact h
  | cons c cs ih =>
    by_cases hw : pyIsSpace c
    · cases cs with
      | nil => simp [lastNonWs, hw] at h
      | cons d ds =>
        have : lastNonWs (d :: ds) = true := h
        simpa [List.dropWhile, hw] using ih this
    · simpa [List.dropWhile, hw] using h

theorem pyStrip_headNonWs (l : List Char) : headNonWs (pyStrip l) = true := by
  unfold pyStrip
  rw [headNonWs_reverse]
  exact lastNonWs_dropWhile _ (by rw [lastNonWs_reverse]; exact headNonWs_dropWhile l)

theorem pyStrip_lastNonWs (l : List Char) : lastNonWs (pyStrip l) = true := by
  unfold pyStrip
  rw [lastNonWs_reverse]
  exact headNonWs_dropWhile _

theorem collapseAux_false_ws (c : Char) (cs : List Char) (h : pyIsSpace c = true) :
    collapseAux false (c :: cs) = ' ' :: collapseAux true cs := by
  simp [collapseAux, h]

theorem collapseAux_true_ws (c : Char) (cs : List Char) (h : pyIsSpace c = true) :
    collapseAux true (c :: cs) = collapseAux true cs := by
  simp [collapseAux, h]

theorem collapseAux_cons_nonws (b : Bool) (c : Char) (cs : List Char)
    (h : pyIsSpace c = false) :
    collapseAux b (c :: cs) = c :: collapseAux false cs := by
  simp [collapseAux, h]

theorem normScan_cons_nonws (prev : Bool) (c : Char) (cs : List Char)
    (h : pyIsSpace c = false) :
    normScan prev (c :: cs) = normScan false cs := by
  simp [normScan, h]

theorem normScan_cons_space (prev : Bool) (cs : List Char) :
    normScan prev (' ' :: cs) = ((!prev) && normScan true cs) := by
  simp [normScan, show pyIsSpace ' ' = true from rfl]

theorem collapse_scan :
    ∀ (n : Nat) (l : List Char), l.length ≤ n →
      (lastNonWs l = true → normScan false (collapseAux false l) = true)
        ∧ (lastNonWs l = true → l ≠ [] → normScan true (collapseAux true l) = true) := by
  intro n
  induction n with
  | zero =>
    intro l hl
    have hnil : l = [] := List.length_eq_zero.mp (Nat.le_zero.mp hl)
    subst hnil
    exact ⟨fun _ => rfl, fun _ hne => absurd rfl hne⟩
  | succ n ihn =>
    intro l hl
    cases l with
    | nil => exact ⟨fun _ => rfl, fun _ hne => absurd rfl hne⟩
    | cons c cs =>
      have hcs : cs.length ≤ n := by simpa using hl
      have hcsne : pyIsSpace c = true → lastNonWs (c :: cs) = true → cs ≠ [] := by
        intro hw hlast hco
        subst hco
        simp [lastNonWs, hw] at hlast
      have hshift : cs ≠ [] → lastNonWs (c :: cs) = lastNonWs cs := by
        intro hne
        cases cs with
        | nil => exact absurd rfl hne
        | cons d ds => rfl
      constructor
      · intro hlast
        by_cases hw : pyIsSpace c = true
        · have hne := hcsne hw hlast
          have hlcs : lastNonWs cs = true := by rw [← hshift hne]; exact hlast
          have hrec := (ihn cs hcs).2 hlcs hne
          rw [collapseAux_false_ws c cs hw, normScan_cons_space, hrec]
          rfl
        · have hw2 : pyIsSpace c = false := by simpa using hw
          cases cs with
          | nil =>
            rw [collapseAux_cons_nonws false c [] hw2, normScan_cons_nonws false c _ hw2]
            rfl
          | cons d ds =>
            have hlcs : lastNonWs (d :: ds) = true := hlast
            have hrec := (ihn (d :: ds) hcs).1 hlcs
            rw [collapseAux_cons_nonws false c (d :: ds) hw2,
              normScan_cons_nonws false c _ hw2]
            exact hrec
      · intro hlast hne0
        by_cases hw : pyIsSpace c = true
        · have hne := hcsne hw hlast
          have hlcs : lastNonWs cs = true := by rw [← hshift hne]; exact hlast
          have hrec := (ihn cs hcs).2 hlcs hne
          rw [collapseAux_true_ws c cs hw]
          exact hrec
        · have hw2 : pyIsSpace c = false := by simpa using hw
          cases cs with
          | nil =>
            rw [collapseAux_cons_nonws true c [] hw2, normScan_cons_nonws true c _ hw2]
            rfl
          | cons d ds =>
            have hlcs : lastNonWs (d :: ds) = true := hlast
            have hrec := (ihn (d :: ds) hcs).1 hlcs
            rw [collapseAux_cons_nonws true c (d :: ds) hw2,
              normScan_cons_nonws true c _ hw2]
            exact hrec

theorem isNormalized_normalizeWs (s : String) :
    isNormalized (normalizeWs s).data = true := by
  show isNormalized (collapseAux false (pyStrip s.data)) = true
  have hh := pyStrip_headNonWs s.data
  have hl := pyStrip_lastNonWs s.data
  cases hp : pyStrip s.data with
  | nil => rfl
  | cons c cs =>
    rw [hp] at hh hl
    have hw : pyIsSpace c = false := by simpa [headNonWs] using hh
    rw [collapseAux_cons_nonws false c cs hw]
    show normScan true (c :: collapseAux false cs) = true
    rw [normScan_cons_nonws true c _ hw]
    cases cs with
    | nil => rfl
    | cons d ds =>
      have hlcs : lastNonWs (d :: ds) = true := hl
      exact (collapse_scan (d :: ds).length (d :: ds) le_rfl).1 hlcs

theorem firstBlock_eq_none_iff (ps : List ((List Char → Bool) × String))
    (cmd : List Char) :
    firstBlock ps cmd = none ↔ ∀ pm ∈ ps, pm.1 cmd = false := by
  induction ps with
  | nil => simp [firstBlock]
  | cons p rest ih =>
    obtain ⟨f, pat⟩ := p
    by_cases hf : f cmd
    · simp [firstBlock, hf]
    · simp [firstBlock, hf, ih]

theorem firstBlock_first_match (cmd : List Char) :
    ∀ (ps : List ((List Char → Bool) × String)) (i : Nat) (hi : i < ps.length),
      (ps.get ⟨i, hi⟩).1 cmd = true →
      (∀ (j : Nat) (hj : j < ps.length), j < i → (ps.get ⟨j, hj⟩).1 cmd = false) →
      firstBlock ps cmd = some (blockReason (ps.get ⟨i, hi⟩).2) := by
  intro ps
  induction ps with
  | nil =>
    intro i hi
    exact absurd hi (by simp)
  | cons p rest ih =>
    intro i hi hmatch hprior
    obtain ⟨f, pat⟩ := p
    cases i with
    | zero =>
      simp only [List.get] at hmatch ⊢
      simp [firstBlock, hmatch]
    | succ k =>
      have h0 : f cmd = false := by
        have := hprior 0 (by simp) (Nat.succ_pos k)
        simpa using this
      have hk : k < rest.length := by simpa using hi
      have hmatch2 : (rest.get ⟨k, hk⟩).1 cmd = true := by simpa using hmatch
      have hprior2 : ∀ (j : Nat) (hj : j < rest.length), j < k →
          (rest.get ⟨j, hj⟩).1 cmd = false := by
        intro j hj hlt
        have := hprior (j + 1) (by simpa using Nat.succ_lt_succ hj) (Nat.succ_lt_succ hlt)
        simpa using this
      have hrec := ih k hk hmatch2 hprior2
      simpa [firstBlock, h0] using hrec

/-- Claim C5: the gate first whitespace-normalizes the command — the string
it tests is trimmed at both ends with every whitespace run collapsed to a
single space — then tests that normalized string against the ordered
`BLOCKED_PATTERNS` list: it returns `none` exactly when no pattern matches,
and when position `i` holds the first matching pattern it returns the
rejection reason naming that pattern's source text.  The check is a pure
function of the command string (no side effects by construction of the
model). -/
theorem c5_gate_normalizes_and_first_match_wins (command : String) :
    isNormalized (normalizeWs command).data = true
      ∧ (is_blocked_command command = none
          ↔ ∀ pm ∈ BLOCKED_PATTERNS, pm.1 (normalizeWs command).data = false)
      ∧ (∀ (i : Nat) (hi : i < BLOCKED_PATTERNS.length),
           (BLOCKED_PATTERNS.get ⟨i, hi⟩).1 (normalizeWs command).data = true →
           (∀ (j : Nat) (hj : j < BLOCKED_PATTERNS.length), j < i →
              (BLOCKED_PATTERNS.get ⟨j, hj⟩).1 (normalizeWs command).data = false) →
           is_blocked_command command
             = some (blockReason (BLOCKED_PATTERNS.get ⟨i, hi⟩).2)) := by
  refine ⟨isNormalized_normalizeWs command, ?_, ?_⟩
  · exact firstBlock_eq_none_iff BLOCKED_PATTERNS (normalizeWs command).data
  · intro i hi hmatch hprior
    exact firstBlock_first_match (normalizeWs command).data BLOCKED_PATTERNS i hi
      hmatch hprior

theorem c5_gate_normalizes_and_first_match_wins_witness :
    normalizeWs "  sudo   RM  -RF   / " = "sudo RM -RF /"
      ∧ is_blocked_command "  sudo   RM  -RF   / "
          = some (blockReason "^(sudo\\s+)?rm\\s+(-[a-z]*f[a-z]*\\s+)?/\\s*$") := by
  constructor
  · decide
  · have h := (c5_gate_normalizes_and_first_match_wins "  sudo   RM  -RF   / ").2.2 0
      (by decide) (by decide) (fun j hj hlt => absurd hlt (by omega))
    exact h

/-!
## Claim C9: the output stream publisher
-/

theorem prefixRel_trans {a b c : JobRec} (h1 : prefixRel a b) (h2 : prefixRel b c) :
    prefixRel a c := by
  obtain ⟨t1, ht1⟩ := h1
  obtain ⟨t2, ht2⟩ := h2
  exact ⟨t1 ++ t2, by rw [ht2, ht1, List.append_assoc]⟩

theorem chain_prefix_last :
    ∀ (l : List JobRec) (a z : JobRec),
      List.Chain' prefixRel (a :: (l ++ [z])) → prefixRel a z := by
  intro l
  induction l with
  | nil =>
    intro a z h
    exact (List.chain'_cons.mp h).1
  | cons b l2 ih =>
    intro a z h
    have h2 := List.chain'_cons.mp h
    exact prefixRel_trans h2.1 (ih b z h2.2)

theorem stream_output_cons_running (job : JobRec) (jid : String) (idx : Nat)
    (rest : List Registry) (hj : job.status = .running) :
    stream_output ([(jid, job)] :: rest) jid idx
      = List.map StreamEv.data (job.output_lines.drop idx)
          ++ stream_output rest jid job.output_lines.length := by
  simp [stream_output, stream_poll, lookupJob, hj]

theorem stream_output_cons_terminal (job : JobRec) (jid : String) (idx : Nat)
    (rest : List Registry) (hj : job.status ≠ .running) :
    stream_output ([(jid, job)] :: rest) jid idx
      = List.map StreamEv.data (job.output_lines.drop idx)
          ++ [StreamEv.done job.status] := by
  simp [stream_output, stream_poll, lookupJob, hj]

/-- Claim C9: for an existing job, the stream yields exactly the output
lines from the subscriber's own cursor onward, in order, across any series
of registry snapshots in which the job keeps appending output while
`running`; at the first snapshot whose status is terminal it emits every
remaining line, then one final `done` marker carrying that terminal status,
and closes.  And if the job has disappeared from the registry at a poll,
the stream closes immediately, emitting nothing and raising no error. -/
theorem c9_stream_follows_then_closes :
    (∀ (pres : List JobRec) (z : JobRec) (jid : String) (idx : Nat),
        (∀ j ∈ pres, j.status = .running) →
        List.Chain' prefixRel (pres ++ [z]) →
        z.status ≠ .running →
        idx ≤ ((pres ++ [z]).headD z).output_lines.length →
        stream_output (List.map (fun j => [(jid, j)]) (pres ++ [z])) jid idx
          = List.map StreamEv.data (z.output_lines.drop idx)
              ++ [StreamEv.done z.status])
      ∧ (∀ (js : Registry) (rest : List Registry) (jid : String) (idx : Nat),
          lookupJob js jid = none → stream_output (js :: rest) jid idx = []) := by
  constructor
  · intro pres
    induction pres with
    | nil =>
      intro z jid idx hrun hchain hterm hidx
      simp only [List.nil_append, List.map_cons, List.map_nil]
      exact stream_output_cons_terminal z jid idx [] hterm
    | cons j pres2 ih =>
      intro z jid idx hrun hchain hterm hidx
      have hj : j.status = .running := hrun j (by simp)
      have hchain2 : List.Chain' prefixRel (j :: (pres2 ++ [z])) := by
        simpa using hchain
      obtain ⟨hR, hchainTail⟩ := List.chain'_cons'.mp hchain2
      have hhd : (pres2 ++ [z]).head? = some ((pres2 ++ [z]).headD z) := by
        cases pres2 <;> simp
      obtain ⟨t, ht⟩ := hR _ hhd
      have hlen : j.output_lines.length ≤ ((pres2 ++ [z]).headD z).output_lines.length := by
        rw [ht]
        simp
      have hrun2 : ∀ x ∈ pres2, x.status = .running := fun x hx => hrun x (by simp [hx])
      have hrec := ih z jid j.output_lines.length hrun2 hchainTail hterm hlen
      obtain ⟨s, hs⟩ := chain_prefix_last pres2 j z hchain2
      have hidx2 : idx ≤ j.output_lines.length := by simpa using hidx
      rw [List.cons_append, List.map_cons]
      rw [stream_output_cons_running j jid idx _ hj, hrec, hs, List.drop_left,
        List.drop_append_eq_append_drop, Nat.sub_eq_zero_of_le hidx2, List.drop_zero]
      simp [List.map_append, List.append_assoc]
  · intro js rest jid idx hlk
    simp [stream_output, stream_poll, hlk]

theorem c9_stream_follows_then_closes_witness :
    stream_output [[("s1", jA9)], [("s1", jB9)]] "s1" 0
        = [StreamEv.data "a\n", StreamEv.data "b\n", StreamEv.done .finished]
      ∧ stream_output [[("s1", jA9)]] "other" 0 = [] := by
  constructor
  · have hrun : ∀ j ∈ [jA9], j.status = .running := by
      intro j hj
      have hq := List.mem_singleton.mp hj
      subst hq
      rfl
    have hchain : List.Chain' prefixRel ([jA9] ++ [jB9]) :=
      List.chain'_cons.mpr ⟨⟨["b\n"], rfl⟩, List.chain'_singleton _⟩
    have h := c9_stream_follows_then_closes.1 [jA9] jB9 "s1" 0 hrun hchain (by decide)
      (Nat.zero_le _)
    exact h.trans (by decide)
  · exact c9_stream_follows_then_closes.2 [("s1", jA9)] [] "other" 0 (by decide)
